import Mathlib

/-!
Verification of the nestjs-mcp handler-registration pipeline and the
session-keyed SSE transport multiplexer, as a shallow embedding of the
TypeScript sources (`McpHttpService`, `McpService`, `ExplorerService`,
`McpModule`).

Conventions of the embedding:
* JavaScript exceptions are modelled with `Except String`; a `try/catch`
  becomes a `match` on the inner result, and a function that can never
  propagate an exception returns `.ok` on every input.
* The session registry `transports : { [sessionId: string]: SSEServerTransport }`
  becomes an association list `List (String × Nat)` where the `Nat` stands
  for the transport object identity; `delete map[k]` becomes `eraseKey`,
  `map[k] = v` becomes `insertSession` (replace-or-prepend, preserving
  JavaScript object key-overwrite semantics for lookups).
* JavaScript truthiness of an optional string field (`!definition.name`,
  `if (description)`) is modelled by `Option String` plus an emptiness
  test: `none` and `some ""` are both falsy, matching `undefined` and `''`.
-/

namespace NestjsMcp

/-! ## Session registry (McpHttpService.transports) -/

/-- The registry of live SSE transports, keyed by session id.  The `Nat`
identifies the transport object. -/
abbrev Registry := List (String × Nat)

/-- `delete this.transports[sessionId]`: remove every binding of the key
(under the at-most-one-entry-per-key invariant this is exactly the one
entry). -/
def eraseKey (k : String) : Registry → Registry
  | [] => []
  | (k1, t) :: rest => if k1 = k then eraseKey k rest else (k1, t) :: eraseKey k rest

/-- `this.transports[sessionId] = transport`: JavaScript object assignment,
replacing any previous binding of the key. -/
def insertSession (k : String) (t : Nat) (r : Registry) : Registry :=
  (k, t) :: eraseKey k r

/-- `this.transports[sessionId]`: read the binding of a key, `none` when
absent. -/
def lookupSession (k : String) : Registry → Option Nat
  | [] => none
  | (k1, t) :: rest => if k1 = k then some t else lookupSession k rest

/-! ## handleMessage (src/unnamed/part_000 lines 79-106) -/

/-- Outcome of `transport.handlePostMessage(req, res)`: either it completed,
or it raised; when it raised, `headersSent` records `res.headersSent` at the
moment the catch block runs. -/
inductive PostOutcome where
  | success : PostOutcome
  | failure (headersSent : Bool) : PostOutcome
deriving DecidableEq, Repr

/-- The externally visible result of `handleMessage`. -/
inductive MsgResult where
  /-- `res.status(400).send("Missing sessionId parameter")` -/
  | badRequest : MsgResult
  /-- `res.status(404).send("No connection found for this sessionId")` -/
  | notFound : MsgResult
  /-- the request/response pair was delegated to the transport and the
  handler completed -/
  | delegated : MsgResult
  /-- the handler raised and `res.status(500).send(...)` was issued -/
  | internalError : MsgResult
  /-- the handler raised after headers were sent: the error is logged and
  swallowed, nothing more is written -/
  | errorSwallowed : MsgResult
deriving DecidableEq, Repr

/-- `sessionId` as read from `req.query.sessionId`; `none` models an absent
query parameter, `some ""` an empty one, both falsy under `!sessionId`. -/
def sessionIdPresent : Option String → Bool
  | none => false
  | some s => s ≠ ""

/-- Shallow embedding of `McpHttpService.handleMessage`.  `post t` models
the call `transport.handlePostMessage(req, res)` on transport `t`.  The
outer `Except` carries any exception the method would propagate to its
caller. -/
def handleMessage (registry : Registry) (sessionId : Option String)
    (post : Nat → PostOutcome) : Except String (MsgResult × Registry) :=
  match sessionId with
  | none => .ok (.badRequest, registry)
  | some sid =>
    if sid = "" then .ok (.badRequest, registry)
    else
      match lookupSession sid registry with
      | some t =>
        match post t with
        | .success => .ok (.delegated, registry)
        | .failure headersSent =>
          if headersSent then .ok (.errorSwallowed, registry)
          else .ok (.internalError, registry)
      | none => .ok (.notFound, registry)

/-! ## handleSSE (src/unnamed/part_000 lines 30-69) -/

/-- The environment a single `handleSSE` call runs against: whether
`this.mcpService.getServer()` returns an instance, the outcome of
`server.connect(transport)` if it is reached, and `res.headersSent` at the
moment either error branch inspects it. -/
structure SSEConnectState where
  serverAvailable : Bool
  connectOutcome : Except String Unit
  headersSent : Bool

/-- What `handleSSE` itself does to the HTTP response on its error paths. -/
inductive SSEAction where
  /-- `res.status(500).send(body)` -/
  | serverError (body : String) : SSEAction
  /-- `res.end()`: terminate the stream with no error payload -/
  | endStream : SSEAction
  /-- no response action taken by `handleSSE` itself -/
  | noResponse : SSEAction
deriving DecidableEq, Repr

/-- Shallow embedding of `McpHttpService.handleSSE`.  The transport is
created, its session id inserted into the registry, and only then is the
engine handle checked and `connect` attempted.  The returned `Bool` is
true iff the connection entered the Open state (`connect` succeeded).
The `res.on("close", ...)` listener registered here fires later, as the
separate transition `handleClose`. -/
def handleSSE (registry : Registry) (sessionId : String) (transport : Nat)
    (st : SSEConnectState) : Except String (Registry × SSEAction × Bool) :=
  let registry1 := insertSession sessionId transport registry
  if st.serverAvailable then
    match st.connectOutcome with
    | .ok _ => .ok (registry1, .noResponse, true)
    | .error _ =>
      if st.headersSent then .ok (registry1, .endStream, false)
      else .ok (registry1, .serverError "Error establishing SSE connection", false)
  else
    if st.headersSent then .ok (registry1, .noResponse, false)
    else .ok (registry1, .serverError "MCP Server not initialized", false)

/-! ## The close listener (src/unnamed/part_000 lines 37-46) -/

/-- Shallow embedding of the `res.on("close", ...)` callback: delete the
registry entry synchronously, then close the transport asynchronously;
`closeOutcome` is the result of `transport.close()`, whose error is caught
by `.catch` and logged.  The returned `Bool` records whether a close error
was logged. -/
def handleClose (registry : Registry) (sessionId : String)
    (closeOutcome : Except String Unit) : Except String (Registry × Bool) :=
  let registry2 := eraseKey sessionId registry
  match closeOutcome with
  | .ok _ => .ok (registry2, false)
  | .error _ => .ok (registry2, true)

/-- Whether the `.catch` attached to `transport.close()` fires (and logs):
exactly when `close` rejected. -/
def closeErrorLogged : Except String Unit → Bool
  | .ok _ => false
  | .error _ => true

/-! ## Prompt registration (mcp.service.ts lines 138-195) -/

/-- One entry of `definition.arguments`; `name = ""` models an argument
whose `name` is absent or empty (both falsy under `!arg.name`), and
`required` is the truthiness of `arg.required`. -/
structure PromptArgument where
  name : String
  description : Option String
  required : Bool
deriving DecidableEq, Repr

/-- The zod schema synthesized for one argument: `z.string()` (optionally
`.describe(d)`), plain or `.optional()`-wrapped. -/
inductive PromptArgSchema where
  | str (desc : Option String) : PromptArgSchema
  | opt (desc : Option String) : PromptArgSchema
deriving DecidableEq, Repr

/-- The loop body choosing between `argsSchema[arg.name] = schema` and
`argsSchema[arg.name] = schema.optional()`. -/
def argSchemaOf (a : PromptArgument) : PromptArgSchema :=
  if a.required then .str a.description else .opt a.description

/-- JavaScript object property assignment `argsSchema[name] = v`: replaces
the value of an existing key in place, appends a new key at the end. -/
def upsert (k : String) (v : PromptArgSchema) :
    List (String × PromptArgSchema) → List (String × PromptArgSchema)
  | [] => [(k, v)]
  | (k1, v1) :: rest =>
    if k1 = k then (k1, v) :: rest else (k1, v1) :: upsert k v rest

/-- The `for (const arg of definition.arguments)` loop of `registerPrompt`,
accumulating `argsSchema` and skipping nameless arguments. -/
def buildArgsAux : List PromptArgument → List (String × PromptArgSchema) →
    List (String × PromptArgSchema)
  | [], acc => acc
  | a :: rest, acc =>
    if a.name = "" then buildArgsAux rest acc
    else buildArgsAux rest (upsert a.name (argSchemaOf a) acc)

/-- The `argsSchema` object produced by the loop, starting from `{}`. -/
def buildArgsSchema (args : List PromptArgument) :
    List (String × PromptArgSchema) :=
  buildArgsAux args []

/-- The `Prompt` definition consumed by `registerPrompt`; `name = ""`
models an absent or empty name, `arguments = none` an absent list. -/
structure PromptDefinition where
  name : String
  description : Option String
  arguments : Option (List PromptArgument)
deriving DecidableEq, Repr

/-- One `this.server.prompt(...)` engine call, distinguished by arity. -/
inductive PromptEngineCall where
  | zeroArg (name description : String) : PromptEngineCall
  | withArgs (name description : String)
      (argsSchema : List (String × PromptArgSchema)) : PromptEngineCall
deriving DecidableEq, Repr

/-- Shallow embedding of `McpService.registerPrompt`: `none` means no
engine call was made (registration skipped). -/
def registerPrompt (d : PromptDefinition) : Option PromptEngineCall :=
  if d.name = "" then none
  else
    let description := d.description.getD ""
    match d.arguments with
    | none => some (.zeroArg d.name description)
    | some args =>
      if args.isEmpty then some (.zeroArg d.name description)
      else
        let argsSchema := buildArgsSchema args
        if argsSchema.isEmpty then some (.zeroArg d.name description)
        else some (.withArgs d.name description argsSchema)

/-! ## Tool registration (mcp.service.ts lines 204-242) -/

/-- The `ToolOptions` definition; `paramsSchema` carries the keys of the
`ZodRawShape` (its values are opaque to the branching logic). -/
structure ToolDefinition where
  name : String
  description : Option String
  paramsSchema : Option (List String)
deriving DecidableEq, Repr

/-- The four distinct `this.server.tool(...)` call shapes. -/
inductive ToolEngineCall where
  | nameDescSchema (name description : String) (schema : List String) : ToolEngineCall
  | nameSchema (name : String) (schema : List String) : ToolEngineCall
  | nameDesc (name description : String) : ToolEngineCall
  | nameOnly (name : String) : ToolEngineCall
deriving DecidableEq, Repr

/-- Truthiness of an optional string field (`if (description)`). -/
def strPresent : Option String → Bool
  | none => false
  | some s => s ≠ ""

/-- `paramsSchema && Object.keys(paramsSchema).length > 0`. -/
def shapePresent : Option (List String) → Bool
  | none => false
  | some keys => ¬ keys.isEmpty

/-- Shallow embedding of `McpService.registerTool`; the argument is
`Option` because the code also guards `!definition`. -/
def registerTool (d : Option ToolDefinition) : Option ToolEngineCall :=
  match d with
  | none => none
  | some d =>
    if d.name = "" then none
    else
      if shapePresent d.paramsSchema then
        if strPresent d.description then
          some (.nameDescSchema d.name (d.description.getD "") (d.paramsSchema.getD []))
        else
          some (.nameSchema d.name (d.paramsSchema.getD []))
      else
        if strPresent d.description then
          some (.nameDesc d.name (d.description.getD ""))
        else
          some (.nameOnly d.name)

/-! ## Resource registration (mcp.service.ts lines 84-129 and 251-255) -/

/-- The runtime value of a present `uriTemplate` field: a string, a
`ResourceTemplate` instance (identified by a `Nat`), or anything else
(including `undefined`). -/
inductive UriTemplateField where
  | str (pattern : String) : UriTemplateField
  | matcher (id : Nat) : UriTemplateField
  | other : UriTemplateField
deriving DecidableEq, Repr

/-- The `ResourceOptions` definition; `uriTemplate = none` models an object
without the `uriTemplate` field, so that `isTemplateResource`
(`'uriTemplate' in options`) is field presence. -/
structure ResourceDefinition where
  name : String
  uri : Option String
  uriTemplate : Option UriTemplateField
  metadata : Option (List (String × String))
deriving DecidableEq, Repr

/-- Shallow embedding of `McpService.isTemplateResource`:
`'uriTemplate' in options`. -/
def isTemplateResource (d : ResourceDefinition) : Bool :=
  d.uriTemplate.isSome

/-- The URI-template matcher handed to the engine: either built from a
pattern string (`new ResourceTemplate(pattern, { list: undefined })`) or
the prebuilt instance passed through. -/
inductive Matcher where
  | fromPattern (pattern : String) : Matcher
  | prebuilt (id : Nat) : Matcher
deriving DecidableEq, Repr

/-- One `this.server.resource(...)` engine call. -/
inductive ResourceEngineCall where
  | template (name : String) (m : Matcher) (metadata : List (String × String)) :
      ResourceEngineCall
  | fixed (name : String) (uri : Option String) (metadata : List (String × String)) :
      ResourceEngineCall
deriving DecidableEq, Repr

/-- Shallow embedding of `McpService.registerResource`: `none` means no
engine call was made (name missing, or invalid `uriTemplate` type). -/
def registerResource (d : ResourceDefinition) : Option ResourceEngineCall :=
  if d.name = "" then none
  else
    let metadata := d.metadata.getD []
    match d.uriTemplate with
    | some (.str s) => some (.template d.name (.fromPattern s) metadata)
    | some (.matcher i) => some (.template d.name (.prebuilt i) metadata)
    | some .other => none
    | none => some (.fixed d.name d.uri metadata)

/-! ## The engine registration sets (state of the shared McpServer) -/

/-- The registration namespaces of the single shared `McpServer`. -/
structure EngineState where
  resources : List ResourceEngineCall
  tools : List ToolEngineCall
  prompts : List PromptEngineCall
deriving DecidableEq, Repr

/-- `registerResource` as a transition on the engine state. -/
def registerResourceIn (e : EngineState) (d : ResourceDefinition) : EngineState :=
  match registerResource d with
  | some r => { e with resources := e.resources ++ [r] }
  | none => e

/-- `registerTool` as a transition on the engine state. -/
def registerToolIn (e : EngineState) (d : Option ToolDefinition) : EngineState :=
  match registerTool d with
  | some r => { e with tools := e.tools ++ [r] }
  | none => e

/-- `registerPrompt` as a transition on the engine state. -/
def registerPromptIn (e : EngineState) (d : PromptDefinition) : EngineState :=
  match registerPrompt d with
  | some r => { e with prompts := e.prompts ++ [r] }
  | none => e

/-! ## ExplorerService.explore (mcp.module.ts concatenation, lines 290-329) -/

/-- A method name found on an instance prototype, together with the two
accesses the scan performs on it: `instance[methodName]` (which a getter
can make throw, and which can be falsy) and
`reflector.get(metadataKey, handler)` (which can throw or find no
annotation).  Handlers and metadata are identified by `Nat`. -/
structure MethodSpec where
  name : String
  handlerAccess : Except String (Option Nat)
  metadataAccess : Except String (Option Nat)
deriving Repr

/-- A provider instance as the scan sees it: falsy/null, a non-object
primitive, or an object with or without a constructor. -/
inductive ProviderInstance where
  | nullInstance : ProviderInstance
  | primitiveInstance : ProviderInstance
  | objectInstance (hasConstructor : Bool) (methods : List MethodSpec) : ProviderInstance
deriving Repr

/-- One discovered handler/metadata pair. -/
structure DiscoveredItem where
  handler : Nat
  metadata : Nat
deriving DecidableEq, Repr

/-- The body of the inner `methodNames.forEach`: read the handler, skip if
falsy, read the metadata, emit an item if present.  An exception in either
access propagates. -/
def exploreMethod (m : MethodSpec) : Except String (Option DiscoveredItem) :=
  match m.handlerAccess with
  | .error e => .error e
  | .ok none => .ok none
  | .ok (some h) =>
    match m.metadataAccess with
    | .error e => .error e
    | .ok none => .ok none
    | .ok (some md) => .ok (some ⟨h, md⟩)

/-- The inner loop over one instance's method names; an exception raised
for one method aborts the remaining iterations. -/
def exploreMethods : List MethodSpec → Except String (List DiscoveredItem)
  | [] => .ok []
  | m :: rest =>
    match exploreMethod m with
    | .error e => .error e
    | .ok none => exploreMethods rest
    | .ok (some item) =>
      match exploreMethods rest with
      | .error e => .error e
      | .ok items => .ok (item :: items)

/-- The per-instance guard
`!instance || typeof instance !== 'object' || !instance.constructor`
followed by the method scan. -/
def exploreInstance : ProviderInstance → Except String (List DiscoveredItem)
  | .nullInstance => .ok []
  | .primitiveInstance => .ok []
  | .objectInstance hasCtor methods =>
    if hasCtor then exploreMethods methods else .ok []

/-- Shallow embedding of `ExplorerService.explore` over the flattened list
of provider instances. -/
def explore : List ProviderInstance → Except String (List DiscoveredItem)
  | [] => .ok []
  | inst :: rest =>
    match exploreInstance inst with
    | .error e => .error e
    | .ok items =>
      match explore rest with
      | .error e => .error e
      | .ok items2 => .ok (items ++ items2)

/-- The items a fully successful scan of one instance's methods yields:
one per method whose handler is truthy and carries an annotation. -/
def collectMethodItems : List MethodSpec → List DiscoveredItem
  | [] => []
  | m :: rest =>
    match m.handlerAccess with
    | .ok (some h) =>
      match m.metadataAccess with
      | .ok (some md) => ⟨h, md⟩ :: collectMethodItems rest
      | _ => collectMethodItems rest
    | _ => collectMethodItems rest

/-- The items a fully successful scan yields across all instances. -/
def collectItems : List ProviderInstance → List DiscoveredItem
  | [] => []
  | .objectInstance true ms :: rest => collectMethodItems ms ++ collectItems rest
  | _ :: rest => collectItems rest

/-- Both accesses of a method succeed (no getter or reflector exception on
the path the scan actually takes). -/
def methodAccessOk (m : MethodSpec) : Bool :=
  match m.handlerAccess with
  | .error _ => false
  | .ok none => true
  | .ok (some _) =>
    match m.metadataAccess with
    | .error _ => false
    | .ok _ => true

/-- Every access the scan performs on this instance succeeds. -/
def instanceAccessOk : ProviderInstance → Bool
  | .objectInstance true methods => methods.all methodAccessOk
  | _ => true

/-! ## McpService constructor (mcp.service.ts lines 51-66) -/

/-- `Implementation` info handed to the `McpServer` constructor. -/
structure Implementation where
  name : String
  version : String
deriving DecidableEq, Repr

/-- The hard-coded fallback used when `serverInfo` is absent. -/
def defaultServerInfo : Implementation :=
  { name := "nestjs-mcp-server", version := "0.0.1" }

/-- Transport selector of the module options. -/
inductive TransportType where
  | stdio : TransportType
  | sse : TransportType
  | noTransport : TransportType
deriving DecidableEq, Repr

/-- `McpModuleOptions`; `serverOptions` is opaque to the logic and kept as
an identifier.  `transport = none` models an options object without the
`transport` field. -/
structure McpModuleOptions where
  serverInfo : Option Implementation
  serverOptions : Option Nat
  transport : Option TransportType
deriving DecidableEq, Repr

/-- The `new McpServer(info, options)` call made by the constructor. -/
structure McpServerCtor where
  info : Implementation
  options : Option Nat
deriving DecidableEq, Repr

/-- Shallow embedding of the `McpService` constructor:
`serverInfo || { name: 'nestjs-mcp-server', version: '0.0.1' }`. -/
def createServer (opts : McpModuleOptions) : McpServerCtor :=
  { info := opts.serverInfo.getD defaultServerInfo
    options := opts.serverOptions }

/-! ## McpModule.onApplicationBootstrap (mcp.module.ts lines 56-85) -/

/-- Shallow embedding of the transport-connection phase of
`onApplicationBootstrap`.  `connectOutcome` is the result of
`server.connect(transport)` when it is reached.  The returned `Bool` is
true iff a stream transport was constructed and `connect` was called; the
outer `Except` carries anything the hook would propagate. -/
def onApplicationBootstrap (opts : McpModuleOptions)
    (connectOutcome : Except String Unit) : Except String Bool :=
  match opts.transport with
  | some .stdio =>
    match connectOutcome with
    | .ok _ => .ok true
    | .error _ => .ok true
  | some .sse => .ok false
  | some .noTransport => .ok false
  | none => .ok false

end NestjsMcp

namespace NestjsMcp

/-! ## Registry lemmas -/

theorem lookup_eraseKey_self (k : String) (r : Registry) :
    lookupSession k (eraseKey k r) = none := by
  induction r with
  | nil => rfl
  | cons p rest ih =>
    rcases p with ⟨k1, t1⟩
    by_cases hp : k1 = k
    · simpa [eraseKey, hp] using ih
    · simpa [eraseKey, lookupSession, hp] using ih

theorem lookup_eraseKey_ne (k k2 : String) (r : Registry) (h : k2 ≠ k) :
    lookupSession k2 (eraseKey k r) = lookupSession k2 r := by
  induction r with
  | nil => rfl
  | cons p rest ih =>
    rcases p with ⟨k1, t1⟩
    by_cases hp : k1 = k
    · have hne : ¬ k1 = k2 := by
        rw [hp]
        exact fun hc => h hc.symm
      simp [eraseKey, hp, lookupSession, hne, Ne.symm h, ih]
    · by_cases hk2 : k1 = k2
      · simp [eraseKey, hp, lookupSession, hk2, h]
      · simp [eraseKey, hp, lookupSession, hk2, ih]

/-! ## Theorems for claim C1 -/

/-- C1: For every inbound POST message, `handleMessage` responds 400 and
leaves the session registry untouched when the `sessionId` query parameter
is missing; responds 404 when no registry entry exists for the given
`sessionId`; otherwise delegates the request/response pair to that
session's transport post-message handler, and if that handler raises,
responds 500 unless a response has already been sent — it never propagates
the error to the caller. -/
theorem handleMessage_spec (registry : Registry) (sessionId : Option String)
    (post : Nat → PostOutcome) :
    (¬ sessionIdPresent sessionId →
      handleMessage registry sessionId post = .ok (.badRequest, registry)) ∧
    (∀ sid, sessionId = some sid → sessionIdPresent sessionId →
      lookupSession sid registry = none →
      handleMessage registry sessionId post = .ok (.notFound, registry)) ∧
    (∀ sid t, sessionId = some sid → sessionIdPresent sessionId →
      lookupSession sid registry = some t →
      (post t = .success →
        handleMessage registry sessionId post = .ok (.delegated, registry)) ∧
      (post t = .failure false →
        handleMessage registry sessionId post = .ok (.internalError, registry)) ∧
      (post t = .failure true →
        handleMessage registry sessionId post = .ok (.errorSwallowed, registry))) ∧
    (∃ out, handleMessage registry sessionId post = .ok out) := by
  refine ⟨?_, ?_, ?_, ?_⟩
  · intro hmiss
    cases sessionId with
    | none => rfl
    | some sid =>
      have hsid : sid = "" := by
        by_contra hne
        exact hmiss (by simp [sessionIdPresent, hne])
      simp [handleMessage, hsid]
  · rintro sid rfl hpres hnone
    have hne : ¬ sid = "" := by
      intro hc
      rw [hc] at hpres
      exact absurd hpres (by decide)
    simp [handleMessage, hne, hnone]
  · rintro sid t rfl hpres hsome
    have hne : ¬ sid = "" := by
      intro hc
      rw [hc] at hpres
      exact absurd hpres (by decide)
    refine ⟨?_, ?_, ?_⟩ <;> intro hpost <;> simp [handleMessage, hne, hsome, hpost]
  · cases sessionId with
    | none => exact ⟨_, rfl⟩
    | some sid =>
      by_cases hsid : sid = ""
      · exact ⟨(.badRequest, registry), by simp [handleMessage, hsid]⟩
      · cases hl : lookupSession sid registry with
        | none => exact ⟨(.notFound, registry), by simp [handleMessage, hsid, hl]⟩
        | some t =>
          cases hp : post t with
          | success => exact ⟨(.delegated, registry), by simp [handleMessage, hsid, hl, hp]⟩
          | failure hs =>
            cases hs with
            | false => exact ⟨(.internalError, registry), by simp [handleMessage, hsid, hl, hp]⟩
            | true => exact ⟨(.errorSwallowed, registry), by simp [handleMessage, hsid, hl, hp]⟩

/-- Witness for C1: a concrete run exercising the missing-id, unknown-id
and delegated branches. -/
theorem handleMessage_spec_witness :
    handleMessage [("s1", 7)] none (fun _ => .success) = .ok (.badRequest, [("s1", 7)]) ∧
    handleMessage [("s1", 7)] (some "s2") (fun _ => .success) = .ok (.notFound, [("s1", 7)]) ∧
    handleMessage [("s1", 7)] (some "s1") (fun _ => .failure false) =
      .ok (.internalError, [("s1", 7)]) := by
  refine ⟨?_, ?_, ?_⟩
  · exact (handleMessage_spec [("s1", 7)] none (fun _ => .success)).1 (by decide)
  · exact (handleMessage_spec [("s1", 7)] (some "s2") (fun _ => .success)).2.1
      "s2" rfl (by decide) (by decide)
  · exact ((handleMessage_spec [("s1", 7)] (some "s1") (fun _ => .failure false)).2.2.1
      "s1" 7 rfl (by decide) (by decide)).2.1 rfl

/-! ## Theorems for claim C6 -/

theorem lookup_insertSession_self (k : String) (t : Nat) (r : Registry) :
    lookupSession k (insertSession k t r) = some t := by
  simp [insertSession, lookupSession]

/-- C6: When a push connection's underlying stream closes, the multiplexer
synchronously removes exactly that connection's `sessionId` entry from the
registry — every other registry entry is unchanged and remains routable —
and then asynchronously closes the transport, with any close error logged
and never propagated. -/
theorem handleClose_spec (registry : Registry) (sessionId : String)
    (closeOutcome : Except String Unit) :
    handleClose registry sessionId closeOutcome =
      .ok (eraseKey sessionId registry, closeErrorLogged closeOutcome) ∧
    lookupSession sessionId (eraseKey sessionId registry) = none ∧
    (∀ k, k ≠ sessionId →
      lookupSession k (eraseKey sessionId registry) = lookupSession k registry) ∧
    (∀ k t p, k ≠ sessionId → k ≠ "" → lookupSession k registry = some t →
      p t = PostOutcome.success →
      handleMessage (eraseKey sessionId registry) (some k) p =
        .ok (.delegated, eraseKey sessionId registry)) := by
  refine ⟨?_, lookup_eraseKey_self sessionId registry, ?_, ?_⟩
  · cases closeOutcome <;> rfl
  · intro k hk
    exact lookup_eraseKey_ne sessionId k registry hk
  · intro k t p hk hkempty hlook hpost
    have hl : lookupSession k (eraseKey sessionId registry) = some t := by
      rw [lookup_eraseKey_ne sessionId k registry hk]
      exact hlook
    simp [handleMessage, hkempty, hl, hpost]

/-- Witness for C6: closing session `a` removes only its entry; session `b`
is unchanged and still routable; the close error is logged, not
propagated. -/
theorem handleClose_spec_witness :
    handleClose [("a", 1), ("b", 2)] "a" (Except.error "x") = .ok ([("b", 2)], true) ∧
    lookupSession "b" (eraseKey "a" [("a", 1), ("b", 2)]) =
      lookupSession "b" [("a", 1), ("b", 2)] ∧
    handleMessage (eraseKey "a" [("a", 1), ("b", 2)]) (some "b") (fun _ => .success) =
      .ok (.delegated, eraseKey "a" [("a", 1), ("b", 2)]) := by
  have h := handleClose_spec [("a", 1), ("b", 2)] "a" (Except.error "x")
  exact ⟨h.1, h.2.2.1 "b" (by decide),
    h.2.2.2 "b" 2 (fun _ => .success) (by decide) (by decide) (by decide) rfl⟩

/-! ## Theorems for claim C7 -/

/-- C7 counterexample: with the engine handle absent and no bytes flushed,
`handleSSE` does respond 500 and does not enter the Open state, but the
registry entry inserted at the top of `handleSSE` is still live when the
call returns — refuting "no live registry entry for its sessionId remains
after handleSSE returns". -/
theorem handleSSE_counterexample :
    handleSSE [] "s1" 5 ⟨false, Except.ok (), false⟩ =
      .ok ([("s1", 5)], .serverError "MCP Server not initialized", false) ∧
    lookupSession "s1" [("s1", 5)] = some 5 := by
  exact ⟨rfl, rfl⟩

/-- C7 (amended): When a new push connection is opened and the shared
protocol-engine handle is absent, `handleSSE` responds 500 provided no
bytes have been flushed yet, and the connection does not enter the Open
state; however the registry entry for its sessionId, inserted before the
engine check, remains live when `handleSSE` returns and is removed only by
the later close event.  If the engine connect fails after headers were
already sent, the stream is terminated without an error payload, and the
error is never raised to the caller. -/
theorem handleSSE_spec (registry : Registry) (sessionId : String)
    (transport : Nat) (st : SSEConnectState) :
    (st.serverAvailable = false → st.headersSent = false →
      handleSSE registry sessionId transport st =
        .ok (insertSession sessionId transport registry,
          .serverError "MCP Server not initialized", false)) ∧
    lookupSession sessionId (insertSession sessionId transport registry) =
      some transport ∧
    (∀ e, st.serverAvailable = true → st.connectOutcome = .error e →
      st.headersSent = true →
      handleSSE registry sessionId transport st =
        .ok (insertSession sessionId transport registry, .endStream, false)) ∧
    (∃ out, handleSSE registry sessionId transport st = .ok out) := by
  rcases st with ⟨sa, co, hs⟩
  refine ⟨?_, lookup_insertSession_self sessionId transport registry, ?_, ?_⟩
  · intro h1 h2
    simp only at h1 h2
    subst h1
    subst h2
    rfl
  · intro e h1 h2 h3
    simp only at h1 h2 h3
    subst h1
    subst h3
    rw [h2]
    rfl
  · cases sa <;> cases hs <;> rcases co with e | u <;>
      exact ⟨_, rfl⟩

/-- Witness for C7: the engine-absent branch at a concrete input, and the
connect-failure-after-headers branch at another. -/
theorem handleSSE_spec_witness :
    handleSSE [] "s1" 5 ⟨false, Except.ok (), false⟩ =
      .ok (insertSession "s1" 5 [], .serverError "MCP Server not initialized", false) ∧
    handleSSE [] "s2" 6 ⟨true, Except.error "boom", true⟩ =
      .ok (insertSession "s2" 6 [], .endStream, false) := by
  exact ⟨(handleSSE_spec [] "s1" 5 ⟨false, Except.ok (), false⟩).1 rfl rfl,
    (handleSSE_spec [] "s2" 6 ⟨true, Except.error "boom", true⟩).2.2.1 "boom" rfl rfl rfl⟩

/-! ## Theorems for claim C3 -/

/-- C3: For every tool definition with a non-empty name, `registerTool`
selects exactly one of four engine registration calls according to the 2×2
matrix of (parameter shape present and non-empty) × (description present):
name+description+schema+handler, name+schema+handler,
name+description+handler, or name+handler; an absent or empty parameter
shape or an absent description is never passed to the engine as an empty
placeholder value. -/
theorem registerTool_spec (d : ToolDefinition) (h : d.name ≠ "") :
    (shapePresent d.paramsSchema = true → strPresent d.description = true →
      registerTool (some d) =
        some (.nameDescSchema d.name (d.description.getD "") (d.paramsSchema.getD []))) ∧
    (shapePresent d.paramsSchema = true → strPresent d.description = false →
      registerTool (some d) =
        some (.nameSchema d.name (d.paramsSchema.getD []))) ∧
    (shapePresent d.paramsSchema = false → strPresent d.description = true →
      registerTool (some d) = some (.nameDesc d.name (d.description.getD ""))) ∧
    (shapePresent d.paramsSchema = false → strPresent d.description = false →
      registerTool (some d) = some (.nameOnly d.name)) := by
  refine ⟨?_, ?_, ?_, ?_⟩ <;> intro h1 h2 <;> simp [registerTool, h, h1, h2]

/-- Witness for C3: one concrete tool definition per cell of the 2×2
matrix. -/
theorem registerTool_spec_witness :
    registerTool (some ⟨"t1", some "d1", some ["x"]⟩) =
      some (.nameDescSchema "t1" "d1" ["x"]) ∧
    registerTool (some ⟨"t2", none, some ["x"]⟩) = some (.nameSchema "t2" ["x"]) ∧
    registerTool (some ⟨"t3", some "d3", none⟩) = some (.nameDesc "t3" "d3") ∧
    registerTool (some ⟨"t4", none, some []⟩) = some (.nameOnly "t4") := by
  refine ⟨?_, ?_, ?_, ?_⟩
  · exact (registerTool_spec ⟨"t1", some "d1", some ["x"]⟩ (by decide)).1
      (by decide) (by decide)
  · exact (registerTool_spec ⟨"t2", none, some ["x"]⟩ (by decide)).2.1
      (by decide) (by decide)
  · exact (registerTool_spec ⟨"t3", some "d3", none⟩ (by decide)).2.2.1
      (by decide) (by decide)
  · exact (registerTool_spec ⟨"t4", none, some []⟩ (by decide)).2.2.2
      (by decide) (by decide)

/-! ## Theorems for claim C4 -/

/-- C4: For every resource definition with a non-empty name,
`registerResource` classifies it as a template resource iff it carries a
`uriTemplate` field (the sole discriminant); a string `uriTemplate` is
compiled into a matcher and registered, a matcher object is registered
directly, any other `uriTemplate` type is an error that skips registration
without raising; a non-template definition is registered against its exact
`uri`. -/
theorem registerResource_spec (d : ResourceDefinition) (h : d.name ≠ "") :
    (isTemplateResource d = true ↔ d.uriTemplate ≠ none) ∧
    (∀ s, d.uriTemplate = some (.str s) →
      registerResource d =
        some (.template d.name (.fromPattern s) (d.metadata.getD []))) ∧
    (∀ i, d.uriTemplate = some (.matcher i) →
      registerResource d =
        some (.template d.name (.prebuilt i) (d.metadata.getD []))) ∧
    (d.uriTemplate = some .other → registerResource d = none) ∧
    (d.uriTemplate = none →
      registerResource d = some (.fixed d.name d.uri (d.metadata.getD []))) := by
  refine ⟨?_, ?_, ?_, ?_, ?_⟩
  · cases hu : d.uriTemplate <;> simp [isTemplateResource, hu]
  · intro s hu
    simp [registerResource, h, hu]
  · intro i hu
    simp [registerResource, h, hu]
  · intro hu
    simp [registerResource, h, hu]
  · intro hu
    simp [registerResource, h, hu]

/-- Witness for C4: a string template, a prebuilt matcher, an invalid
template value and a fixed resource, all at concrete inputs. -/
theorem registerResource_spec_witness :
    registerResource ⟨"r1", none, some (.str "u/{x}"), none⟩ =
      some (.template "r1" (.fromPattern "u/{x}") []) ∧
    registerResource ⟨"r2", none, some (.matcher 3), none⟩ =
      some (.template "r2" (.prebuilt 3) []) ∧
    registerResource ⟨"r3", none, some .other, none⟩ = none ∧
    registerResource ⟨"r4", some "u", none, some [("k", "v")]⟩ =
      some (.fixed "r4" (some "u") [("k", "v")]) := by
  refine ⟨?_, ?_, ?_, ?_⟩
  · exact (registerResource_spec ⟨"r1", none, some (.str "u/{x}"), none⟩
      (by decide)).2.1 "u/{x}" rfl
  · exact (registerResource_spec ⟨"r2", none, some (.matcher 3), none⟩
      (by decide)).2.2.1 3 rfl
  · exact (registerResource_spec ⟨"r3", none, some .other, none⟩
      (by decide)).2.2.2.1 rfl
  · exact (registerResource_spec ⟨"r4", some "u", none, some [("k", "v")]⟩
      (by decide)).2.2.2.2 rfl

/-! ## Theorems for claim C5 -/

/-- C5: For every definition whose name is absent or empty, each of
`registerResource`, `registerTool`, and `registerPrompt` logs a warning and
performs no engine call: the engine's registration set is unchanged before
and after the attempt, and no exception is raised (all three transitions
are total functions returning the input state). -/
theorem register_missing_name_spec (e : EngineState) (rd : ResourceDefinition)
    (td : ToolDefinition) (pd : PromptDefinition)
    (hr : rd.name = "") (ht : td.name = "") (hp : pd.name = "") :
    registerResourceIn e rd = e ∧
    registerToolIn e (some td) = e ∧
    registerToolIn e none = e ∧
    registerPromptIn e pd = e := by
  refine ⟨?_, ?_, rfl, ?_⟩
  · simp [registerResourceIn, registerResource, hr]
  · simp [registerToolIn, registerTool, ht]
  · simp [registerPromptIn, registerPrompt, hp]

/-- Witness for C5: a non-empty engine state is untouched by registration
attempts with empty names. -/
theorem register_missing_name_spec_witness :
    registerResourceIn ⟨[.fixed "r" none []], [.nameOnly "t"], [.zeroArg "p" ""]⟩
        ⟨"", none, none, none⟩ =
      ⟨[.fixed "r" none []], [.nameOnly "t"], [.zeroArg "p" ""]⟩ ∧
    registerToolIn ⟨[.fixed "r" none []], [.nameOnly "t"], [.zeroArg "p" ""]⟩
        (some ⟨"", none, none⟩) =
      ⟨[.fixed "r" none []], [.nameOnly "t"], [.zeroArg "p" ""]⟩ ∧
    registerPromptIn ⟨[.fixed "r" none []], [.nameOnly "t"], [.zeroArg "p" ""]⟩
        ⟨"", none, none⟩ =
      ⟨[.fixed "r" none []], [.nameOnly "t"], [.zeroArg "p" ""]⟩ := by
  have h := register_missing_name_spec
    ⟨[.fixed "r" none []], [.nameOnly "t"], [.zeroArg "p" ""]⟩
    ⟨"", none, none, none⟩ ⟨"", none, none⟩ ⟨"", none, none⟩ rfl rfl rfl
  exact ⟨h.1, h.2.1, h.2.2.2⟩

/-! ## Theorems for claim C9 -/

/-- C9: During the one-shot bootstrap hook, when and only when the
configured transport mode is the process-stream (stdio) mode, a stream
transport is constructed and the engine's connect is called (the returned
flag); any failure of that connect is caught and logged and the hook still
completes without raising; for every other transport mode no automatic
connection attempt is made. -/
theorem onApplicationBootstrap_spec (opts : McpModuleOptions)
    (connectOutcome : Except String Unit) :
    (opts.transport = some .stdio →
      onApplicationBootstrap opts connectOutcome = .ok true) ∧
    (opts.transport ≠ some .stdio →
      onApplicationBootstrap opts connectOutcome = .ok false) ∧
    (∃ b, onApplicationBootstrap opts connectOutcome = .ok b) := by
  refine ⟨?_, ?_, ?_⟩
  · intro h
    rcases connectOutcome with e | u <;> simp [onApplicationBootstrap, h]
  · intro h
    rcases hopt : opts.transport with _ | t
    · simp [onApplicationBootstrap, hopt]
    · cases t with
      | stdio => exact absurd hopt h
      | sse => simp [onApplicationBootstrap, hopt]
      | noTransport => simp [onApplicationBootstrap, hopt]
  · rcases hopt : opts.transport with _ | t
    · exact ⟨false, by simp [onApplicationBootstrap, hopt]⟩
    · cases t with
      | stdio =>
        rcases connectOutcome with e | u <;>
          exact ⟨true, by simp [onApplicationBootstrap, hopt]⟩
      | sse => exact ⟨false, by simp [onApplicationBootstrap, hopt]⟩
      | noTransport => exact ⟨false, by simp [onApplicationBootstrap, hopt]⟩

/-- Witness for C9: a stdio module whose connect fails still completes the
hook (connect was attempted), and an SSE module makes no attempt. -/
theorem onApplicationBootstrap_spec_witness :
    onApplicationBootstrap ⟨none, none, some .stdio⟩ (Except.error "refused") =
      .ok true ∧
    onApplicationBootstrap ⟨none, none, some .sse⟩ (Except.ok ()) = .ok false := by
  exact ⟨(onApplicationBootstrap_spec ⟨none, none, some .stdio⟩
      (Except.error "refused")).1 rfl,
    (onApplicationBootstrap_spec ⟨none, none, some .sse⟩ (Except.ok ())).2.1
      (by decide)⟩

/-! ## Theorems for claim C10 -/

/-- C10: If the module options omit `serverInfo`, the service constructor
still creates the protocol-engine instance, substituting the default
implementation info `{ name: 'nestjs-mcp-server', version: '0.0.1' }`;
construction never fails for absent `serverInfo` (`createServer` is a
total function). -/
theorem createServer_default_spec (serverOptions : Option Nat)
    (transport : Option TransportType) :
    createServer ⟨none, serverOptions, transport⟩ =
      ⟨⟨"nestjs-mcp-server", "0.0.1"⟩, serverOptions⟩ := by
  rfl

/-! ## Theorems for claim C8 -/

/-- C8 counterexample: an instance whose first method throws on access
makes `explore` propagate the exception and abort the scan, dropping the
discoverable item of the second method — refuting "a failure during
metadata lookup for one method does not abort the scan of the remaining
methods and instances". -/
theorem explore_counterexample :
    explore [.objectInstance true
        [⟨"bad", .error "boom", .ok none⟩, ⟨"good", .ok (some 1), .ok (some 2)⟩]] =
      .error "boom" ∧
    explore [.objectInstance true [⟨"good", .ok (some 1), .ok (some 2)⟩]] =
      .ok [⟨1, 2⟩] := by
  exact ⟨rfl, rfl⟩

theorem exploreMethods_all_ok (ms : List MethodSpec)
    (h : ms.all methodAccessOk = true) :
    exploreMethods ms = .ok (collectMethodItems ms) := by
  induction ms with
  | nil => rfl
  | cons m rest ih =>
    rw [List.all_cons, Bool.and_eq_true] at h
    have hrest := ih h.2
    have hm := h.1
    cases hha : m.handlerAccess with
    | error e => simp [methodAccessOk, hha] at hm
    | ok oh =>
      cases oh with
      | none => simp [exploreMethods, exploreMethod, collectMethodItems, hha, hrest]
      | some hdl =>
        cases hma : m.metadataAccess with
        | error e => simp [methodAccessOk, hha, hma] at hm
        | ok omd =>
          cases omd with
          | none =>
            simp [exploreMethods, exploreMethod, collectMethodItems, hha, hma, hrest]
          | some md =>
            simp [exploreMethods, exploreMethod, collectMethodItems, hha, hma, hrest]

/-- C8 (amended): the discovery scan skips instances that are null,
non-objects, or lack a constructor, and they contribute nothing; a falsy
handler or a method with no annotation is skipped; but an exception raised
by a handler access or metadata lookup propagates out of `explore` and
aborts the scan of the remaining methods and instances.  When every access
succeeds, `explore` returns the finite list of all discovered items. -/
theorem explore_spec :
    (∀ rest, explore (.nullInstance :: rest) = explore rest) ∧
    (∀ rest, explore (.primitiveInstance :: rest) = explore rest) ∧
    (∀ ms rest, explore (.objectInstance false ms :: rest) = explore rest) ∧
    (∀ insts, insts.all instanceAccessOk = true →
      explore insts = .ok (collectItems insts)) := by
  refine ⟨?_, ?_, ?_, ?_⟩
  · intro rest
    cases h : explore rest <;> simp [explore, exploreInstance, h]
  · intro rest
    cases h : explore rest <;> simp [explore, exploreInstance, h]
  · intro ms rest
    cases h : explore rest <;> simp [explore, exploreInstance, h]
  · intro insts h
    induction insts with
    | nil => rfl
    | cons inst rest ih =>
      rw [List.all_cons, Bool.and_eq_true] at h
      have hrest := ih h.2
      have hi := h.1
      cases inst with
      | nullInstance => simp [explore, exploreInstance, collectItems, hrest]
      | primitiveInstance => simp [explore, exploreInstance, collectItems, hrest]
      | objectInstance hasCtor ms =>
        cases hasCtor with
        | false => simp [explore, exploreInstance, collectItems, hrest]
        | true =>
          rw [instanceAccessOk] at hi
          have hms := exploreMethods_all_ok ms hi
          simp [explore, exploreInstance, collectItems, hms, hrest]

/-- Witness for C8: a scan over a null instance, a constructor-less
instance and a well-behaved instance returns exactly the latter's item. -/
theorem explore_spec_witness :
    explore [.nullInstance, .objectInstance false [⟨"m", .error "boom", .ok none⟩],
        .objectInstance true [⟨"good", .ok (some 1), .ok (some 2)⟩]] =
      .ok (collectItems [.nullInstance,
        .objectInstance false [⟨"m", .error "boom", .ok none⟩],
        .objectInstance true [⟨"good", .ok (some 1), .ok (some 2)⟩]]) ∧
    explore (.nullInstance ::
        [.objectInstance true [⟨"good", .ok (some 1), .ok (some 2)⟩]]) =
      explore [.objectInstance true [⟨"good", .ok (some 1), .ok (some 2)⟩]] := by
  exact ⟨explore_spec.2.2.2 _ rfl, explore_spec.1 _⟩

/-! ## Lemmas on the argsSchema object and theorems for claim C2 -/

theorem upsert_cons (k : String) (v : PromptArgSchema) (k1 : String)
    (v1 : PromptArgSchema) (rest : List (String × PromptArgSchema)) :
    upsert k v ((k1, v1) :: rest) =
      if k1 = k then (k1, v) :: rest else (k1, v1) :: upsert k v rest := rfl

theorem mem_upsert (k : String) (v : PromptArgSchema) (k2 : String)
    (s : PromptArgSchema) (l : List (String × PromptArgSchema))
    (h : (k2, s) ∈ upsert k v l) :
    (k2 = k ∧ s = v) ∨ (k2, s) ∈ l := by
  induction l with
  | nil =>
    simp [upsert] at h
    exact Or.inl ⟨h.1, h.2⟩
  | cons p rest ih =>
    rcases p with ⟨k1, v1⟩
    by_cases hk : k1 = k
    · rw [upsert_cons, if_pos hk] at h
      rcases List.mem_cons.mp h with heq | htail
      · rw [Prod.mk.injEq] at heq
        exact Or.inl ⟨heq.1.trans hk, heq.2⟩
      · exact Or.inr (List.mem_cons_of_mem _ htail)
    · rw [upsert_cons, if_neg hk] at h
      rcases List.mem_cons.mp h with heq | htail
      · exact Or.inr (List.mem_cons.mpr (Or.inl heq))
      · rcases ih htail with hins | hmem
        · exact Or.inl hins
        · exact Or.inr (List.mem_cons_of_mem _ hmem)

theorem self_mem_upsert (k : String) (v : PromptArgSchema)
    (l : List (String × PromptArgSchema)) : (k, v) ∈ upsert k v l := by
  induction l with
  | nil => simp [upsert]
  | cons p rest ih =>
    rcases p with ⟨k1, v1⟩
    by_cases hk : k1 = k
    · subst hk
      rw [upsert_cons, if_pos rfl]
      exact List.mem_cons_self _ _
    · rw [upsert_cons, if_neg hk]
      exact List.mem_cons_of_mem _ ih

theorem key_mem_upsert_mono (k : String) (v : PromptArgSchema) (k2 : String)
    (s : PromptArgSchema) (l : List (String × PromptArgSchema))
    (h : (k2, s) ∈ l) : ∃ s2, (k2, s2) ∈ upsert k v l := by
  by_cases hk : k2 = k
  · subst hk
    exact ⟨v, self_mem_upsert k2 v l⟩
  · refine ⟨s, ?_⟩
    induction l with
    | nil => cases h
    | cons p rest ih =>
      rcases p with ⟨k1, v1⟩
      rcases List.mem_cons.mp h with heq | htail
      · rw [Prod.mk.injEq] at heq
        by_cases hk1 : k1 = k
        · exact absurd (heq.1.trans hk1) hk
        · rw [upsert_cons, if_neg hk1]
          exact List.mem_cons.mpr (Or.inl (by rw [Prod.mk.injEq]; exact heq))
      · by_cases hk1 : k1 = k
        · rw [upsert_cons, if_pos hk1]
          exact List.mem_cons_of_mem _ htail
        · rw [upsert_cons, if_neg hk1]
          exact List.mem_cons_of_mem _ (ih htail)

theorem upsert_ne_nil (k : String) (v : PromptArgSchema)
    (l : List (String × PromptArgSchema)) : upsert k v l ≠ [] := by
  cases l with
  | nil => simp [upsert]
  | cons p rest =>
    rcases p with ⟨k1, v1⟩
    by_cases hk : k1 = k <;> simp [upsert_cons, hk]

theorem buildArgsAux_cons (a : PromptArgument) (rest : List PromptArgument)
    (acc : List (String × PromptArgSchema)) :
    buildArgsAux (a :: rest) acc =
      if a.name = "" then buildArgsAux rest acc
      else buildArgsAux rest (upsert a.name (argSchemaOf a) acc) := rfl

theorem buildArgsAux_mem (args : List PromptArgument) :
    ∀ acc k s, (k, s) ∈ buildArgsAux args acc →
      (k, s) ∈ acc ∨ ∃ a ∈ args, a.name = k ∧ k ≠ "" ∧ s = argSchemaOf a := by
  induction args with
  | nil => exact fun acc k s h => Or.inl h
  | cons a rest ih =>
    intro acc k s h
    by_cases hn : a.name = ""
    · rw [buildArgsAux_cons, if_pos hn] at h
      rcases ih acc k s h with hacc | ⟨b, hb, h1, h2, h3⟩
      · exact Or.inl hacc
      · exact Or.inr ⟨b, List.mem_cons_of_mem a hb, h1, h2, h3⟩
    · rw [buildArgsAux_cons, if_neg hn] at h
      rcases ih _ k s h with hacc | ⟨b, hb, h1, h2, h3⟩
      · rcases mem_upsert a.name (argSchemaOf a) k s acc hacc with ⟨hk, hs⟩ | hacc2
        · refine Or.inr ⟨a, List.mem_cons_self a rest, hk.symm, ?_, hs⟩
          rw [hk]
          exact hn
        · exact Or.inl hacc2
      · exact Or.inr ⟨b, List.mem_cons_of_mem a hb, h1, h2, h3⟩

theorem buildArgsAux_key_mono (args : List PromptArgument) :
    ∀ acc k s, (k, s) ∈ acc → ∃ s2, (k, s2) ∈ buildArgsAux args acc := by
  induction args with
  | nil => exact fun acc k s h => ⟨s, h⟩
  | cons a rest ih =>
    intro acc k s h
    by_cases hn : a.name = ""
    · rw [buildArgsAux_cons, if_pos hn]
      exact ih acc k s h
    · rw [buildArgsAux_cons, if_neg hn]
      rcases key_mem_upsert_mono a.name (argSchemaOf a) k s acc h with ⟨s2, hs2⟩
      exact ih _ k s2 hs2

theorem buildArgsAux_covers (args : List PromptArgument) :
    ∀ acc (a : PromptArgument), a ∈ args → a.name ≠ "" →
      ∃ s, (a.name, s) ∈ buildArgsAux args acc := by
  induction args with
  | nil => exact fun acc a ha => absurd ha (List.not_mem_nil a)
  | cons b rest ih =>
    intro acc a ha hn
    rcases List.mem_cons.mp ha with heq | htail
    · subst heq
      rw [buildArgsAux_cons, if_neg hn]
      exact buildArgsAux_key_mono rest _ a.name (argSchemaOf a)
        (self_mem_upsert a.name (argSchemaOf a) acc)
    · by_cases hb : b.name = ""
      · rw [buildArgsAux_cons, if_pos hb]
        exact ih acc a htail hn
      · rw [buildArgsAux_cons, if_neg hb]
        exact ih _ a htail hn

theorem buildArgsAux_eq_nil (args : List PromptArgument) :
    ∀ acc, buildArgsAux args acc = [] ↔
      (acc = [] ∧ ∀ a ∈ args, a.name = "") := by
  induction args with
  | nil =>
    intro acc
    simp [buildArgsAux]
  | cons a rest ih =>
    intro acc
    by_cases hn : a.name = ""
    · rw [buildArgsAux_cons, if_pos hn, ih]
      constructor
      · rintro ⟨h1, h2⟩
        refine ⟨h1, ?_⟩
        intro b hb
        rcases List.mem_cons.mp hb with heq | hb2
        · rw [heq]
          exact hn
        · exact h2 b hb2
      · rintro ⟨h1, h2⟩
        exact ⟨h1, fun b hb => h2 b (List.mem_cons_of_mem a hb)⟩
    · rw [buildArgsAux_cons, if_neg hn, ih]
      constructor
      · rintro ⟨h1, h2⟩
        exact absurd h1 (upsert_ne_nil _ _ _)
      · rintro ⟨h1, h2⟩
        exact absurd (h2 a (List.mem_cons_self a rest)) hn

/-- C2: For every prompt definition with a non-empty name and a non-empty
argument list, `registerPrompt` synthesizes a per-argument string schema in
which an argument with `required = true` maps to a plain string schema and
one with `required = false` maps to an optional-wrapped string schema;
every argument lacking a name is dropped with a warning; and if all
arguments are dropped (the synthesized schema is empty) the prompt is
still registered, as a zero-argument prompt — registration never fails for
a validly-named prompt. -/
theorem registerPrompt_spec (d : PromptDefinition) (args : List PromptArgument)
    (hname : d.name ≠ "") (hargs : d.arguments = some args) (hne : args ≠ []) :
    ((∀ a ∈ args, a.name = "") →
      registerPrompt d = some (.zeroArg d.name (d.description.getD ""))) ∧
    ((∃ a ∈ args, a.name ≠ "") →
      registerPrompt d =
        some (.withArgs d.name (d.description.getD "") (buildArgsSchema args))) ∧
    (∀ k s, (k, s) ∈ buildArgsSchema args →
      ∃ a ∈ args, a.name = k ∧ k ≠ "" ∧
        s = (if a.required then PromptArgSchema.str a.description
             else PromptArgSchema.opt a.description)) ∧
    (∀ a ∈ args, a.name ≠ "" → ∃ s, (a.name, s) ∈ buildArgsSchema args) ∧
    (∃ r, registerPrompt d = some r) := by
  have hie : args.isEmpty = false := by
    cases args with
    | nil => exact absurd rfl hne
    | cons a rest => rfl
  refine ⟨?_, ?_, ?_, ?_, ?_⟩
  · intro hall
    have hnil : buildArgsSchema args = [] :=
      (buildArgsAux_eq_nil args []).mpr ⟨rfl, hall⟩
    simp [registerPrompt, hname, hargs, hie, buildArgsSchema] at hnil ⊢
    simp [hnil]
  · rintro ⟨a, ha, hn⟩
    have hnnil : ¬ buildArgsSchema args = [] := by
      intro hc
      exact hn (((buildArgsAux_eq_nil args []).mp hc).2 a ha)
    have hienil : (buildArgsSchema args).isEmpty = false := by
      cases hb : buildArgsSchema args with
      | nil => exact absurd hb hnnil
      | cons p rest => rfl
    simp [registerPrompt, hname, hargs, hie, hienil]
  · intro k s h
    rcases buildArgsAux_mem args [] k s h with habs | ⟨a, ha, h1, h2, h3⟩
    · exact absurd habs (List.not_mem_nil _)
    · refine ⟨a, ha, h1, h2, ?_⟩
      rw [h3, argSchemaOf]
  · intro a ha hn
    exact buildArgsAux_covers args [] a ha hn
  · by_cases hb : (buildArgsSchema args).isEmpty = true
    · exact ⟨.zeroArg d.name (d.description.getD ""),
        by simp [registerPrompt, hname, hargs, hie, hb]⟩
    · rw [Bool.not_eq_true] at hb
      exact ⟨.withArgs d.name (d.description.getD "") (buildArgsSchema args),
        by simp [registerPrompt, hname, hargs, hie, hb]⟩

/-- Witness for C2: a prompt with a required argument, an optional argument
and a nameless argument registers with a two-entry schema; a prompt whose
only argument is nameless falls back to zero-argument registration. -/
theorem registerPrompt_spec_witness :
    registerPrompt ⟨"p", some "d",
        some [⟨"a", none, true⟩, ⟨"b", none, false⟩, ⟨"", none, true⟩]⟩ =
      some (.withArgs "p" "d"
        [("a", PromptArgSchema.str none), ("b", PromptArgSchema.opt none)]) ∧
    registerPrompt ⟨"q", none, some [⟨"", none, true⟩]⟩ =
      some (.zeroArg "q" "") := by
  constructor
  · have h := (registerPrompt_spec
      ⟨"p", some "d", some [⟨"a", none, true⟩, ⟨"b", none, false⟩, ⟨"", none, true⟩]⟩
      [⟨"a", none, true⟩, ⟨"b", none, false⟩, ⟨"", none, true⟩]
      (by decide) rfl (by decide)).2.1
      ⟨⟨"a", none, true⟩, by decide, by decide⟩
    exact h.trans (by decide)
  · exact (registerPrompt_spec ⟨"q", none, some [⟨"", none, true⟩]⟩
      [⟨"", none, true⟩] (by decide) rfl (by decide)).1
      (by decide)

end NestjsMcp
